import Mathlib

/-!
Verification of the GML-to-graph converter (gml-rs).

The embedding follows src/lib.rs: a token adapter that rewrites the GML
bracket delimiters into the generic parser's curly delimiters, and the
schema interpreter sexp_to_graph that walks the parsed tree and builds a
directed graph.  The generic parsed tree, its accessors and the graph
container are external collaborators (asexp, petgraph); they are modelled
from the spec's description of their interfaces (section 3 of the spec):
atoms / lists / string-keyed maps with insertion order and unique keys,
and a graph whose node indices are assigned in insertion order.
-/

set_option maxRecDepth 4096

namespace Gml

/-- Atomic scalar values of the generic parsed tree (asexp Atom): unsigned
integers, signed integers, floats (kept opaque as their textual form),
strings, booleans and unit. -/
inductive Atom where
  | uint (n : Nat)
  | sint (i : Int)
  | float (text : String)
  | str (s : String)
  | boolean (b : Bool)
  | unit
deriving DecidableEq

/-- Generic parsed tree (asexp Sexp): an atom, an ordered list, or a map
from string keys to subtrees, insertion order preserved, keys unique. -/
inductive Sexp where
  | atom (a : Atom)
  | list (items : List Sexp)
  | map (pairs : List (String × Sexp))

/-- Key lookup in a parsed map (the map's get): first pair with the key. -/
def getk : List (String × Sexp) → String → Option Sexp
  | [], _ => none
  | (k, v) :: rest, key => if k = key then some v else getk rest key

/-- Sexp::get_uint — the value of an unsigned-integer atom, none otherwise. -/
def Sexp.get_uint : Sexp → Option Nat
  | Sexp.atom (Atom.uint n) => some n
  | _ => none

/-- Sexp::into_map — succeeds exactly on map trees. -/
def Sexp.into_map : Sexp → Option (List (String × Sexp))
  | Sexp.map pairs => some pairs
  | _ => none

/-- Tokens of the generic tokenizer (asexp Token), as far as the adapter
distinguishes them: four delimiters, plus scalars, string literals and
comments that pass through untouched. -/
inductive Token where
  | openBracket
  | closeBracket
  | openCurly
  | closeCurly
  | scalar (s : String)
  | stringLit (s : String)
  | comment (s : String)
deriving DecidableEq

/-- The token rewrite inside parse_gml_to_sexp: an open bracket becomes an
open curly, a close bracket a close curly, anything else is unchanged. -/
def adaptToken : Token → Token
  | Token.openBracket => Token.openCurly
  | Token.closeBracket => Token.closeCurly
  | t => t

/-- The adapter applied over the whole token stream (iter.map). -/
def adaptTokens (ts : List Token) : List Token := ts.map adaptToken

/-- Shallow model of petgraph Graph<N, E, Directed>: node payloads in
insertion order (a node's index is its position in the list) and edges as
(source index, target index, payload) triples in insertion order. -/
structure Graph (N E : Type) where
  nodes : List N
  edges : List (Nat × Nat × E)
deriving DecidableEq

/-- Graph::new(). -/
def Graph.new {N E : Type} : Graph N E := Graph.mk [] []

/-- Graph::add_node: appends the payload and returns the new graph together
with the index of the inserted node (petgraph indices are assigned in
insertion order). -/
def Graph.add_node {N E : Type} (g : Graph N E) (w : N) : Graph N E × Nat :=
  (Graph.mk (g.nodes ++ [w]) g.edges, g.nodes.length)

/-- Graph::add_edge: appends a directed edge. -/
def Graph.add_edge {N E : Type} (g : Graph N E) (s t : Nat) (w : E) : Graph N E :=
  Graph.mk g.nodes (g.edges ++ [(s, t, w)])

/-- Graph<_, _, Directed>::is_directed holds by construction. -/
def Graph.is_directed {N E : Type} : Graph N E → Bool := fun _ => true

/-- The node_map of sexp_to_graph: external node id to internal node index
(BTreeMap u64 NodeIndex, modelled as an association list with unique keys;
lookups agree with the tree map since keys are unique). -/
abbrev NodeMap := List (Nat × Nat)

/-- BTreeMap::get on the node map. -/
def nmLookup : NodeMap → Nat → Option Nat
  | [], _ => none
  | (k, v) :: rest, key => if k = key then some v else nmLookup rest key

/-- BTreeMap::insert on the node map: the previous value bound to the key
(if any) together with the updated map. -/
def nmInsert (m : NodeMap) (key idx : Nat) : Option Nat × NodeMap :=
  match nmLookup m key with
  | some old => (some old, m)
  | none => (none, m ++ [(key, idx)])

/-- Outcome of a Rust computation that can return Ok, return Err, or panic:
the reference code panics (crash) when it indexes the node map with a key
that was never inserted. -/
inductive PResult (α : Type) where
  | ok (value : α)
  | err (msg : String)
  | crash
deriving DecidableEq

/-- One iteration of the entry loop of sexp_to_graph: dispatch on the entry
key, updating (node_map, graph, buffered edges) or failing with the error
string the source returns on that path. -/
def processEntry {N E : Type} (nwf : Option Sexp → Option N) (ewf : Option Sexp → Option E)
    (k : String) (v : Sexp) (nm : NodeMap) (g : Graph N E) (es : List (Nat × Nat × E)) :
    Except String (NodeMap × Graph N E × List (Nat × Nat × E)) :=
  if k = "directed" then
    match v.get_uint with
    | some 1 => Except.ok (nm, g, es)
    | _ => Except.error "only directed graph supported"
  else if k = "node" then
    match v.into_map with
    | none => Except.error "not a map"
    | some node_info =>
      match getk node_info "id" with
      | some (Sexp.atom (Atom.uint node_id)) =>
        match nwf (getk node_info "weight") with
        | some weight =>
          match g.add_node weight with
          | (g', idx) =>
            match nmInsert nm node_id idx with
            | (some _, _) => Except.error "duplicate node-id"
            | (none, nm') => Except.ok (nm', g', es)
        | none => Except.error "invalid node weight"
      | _ => Except.error "Invalid id"
  else if k = "edge" then
    match v.into_map with
    | none => Except.error "not a map"
    | some edge_info =>
      match getk edge_info "source" with
      | some (Sexp.atom (Atom.uint source)) =>
        match getk edge_info "target" with
        | some (Sexp.atom (Atom.uint target)) =>
          match ewf (getk edge_info "weight") with
          | some weight => Except.ok (nm, g, es ++ [(source, target, weight)])
          | none => Except.error "invalid edge weight"
        | _ => Except.error "Invalid target id"
      | _ => Except.error "Invalid source id"
  else Except.error "invalid item"

/-- The entry loop of sexp_to_graph over the graph section, in declaration
order; the first failing entry aborts the walk. -/
def processEntries {N E : Type} (nwf : Option Sexp → Option N) (ewf : Option Sexp → Option E) :
    List (String × Sexp) → NodeMap → Graph N E → List (Nat × Nat × E) →
    Except String (NodeMap × Graph N E × List (Nat × Nat × E))
  | [], nm, g, es => Except.ok (nm, g, es)
  | e :: rest, nm, g, es =>
    match processEntry nwf ewf e.1 e.2 nm g es with
    | Except.ok (nm', g', es') => processEntries nwf ewf rest nm' g' es'
    | Except.error msg => Except.error msg

/-- The second pass of sexp_to_graph: every buffered (source, target,
weight) triple is resolved through the node map and inserted.  The source
indexes the map unconditionally, so an id never declared by a node entry
panics (crash). -/
def resolveEdges {N E : Type} (nm : NodeMap) :
    List (Nat × Nat × E) → Graph N E → PResult (Graph N E)
  | [], g => PResult.ok g
  | (s, t, w) :: rest, g =>
    match nmLookup nm s with
    | some si =>
      match nmLookup nm t with
      | some ti => resolveEdges nm rest (g.add_edge si ti w)
      | none => PResult.crash
    | none => PResult.crash

/-- sexp_to_graph from src/lib.rs: coerce the parsed tree to a map, extract
the "graph" section, run the entry loop, then resolve buffered edges. -/
def sexp_to_graph {N E : Type} (sexp : Sexp) (nwf : Option Sexp → Option N)
    (ewf : Option Sexp → Option E) : PResult (Graph N E) :=
  match sexp.into_map with
  | none => PResult.err "not a map"
  | some m =>
    match getk m "graph" with
    | some (Sexp.map v) =>
      match processEntries nwf ewf v [] Graph.new [] with
      | Except.error msg => PResult.err msg
      | Except.ok (nm, g, es) => resolveEdges nm es g
    | _ => PResult.err "no graph given or invalid"

/-- Specification-level extraction of the node payloads a graph section
declares, in declaration order: one payload (the node-weight mapper applied
to the entry's optional weight subtree) per well-shaped node entry. -/
def nodesOf {N : Type} (nwf : Option Sexp → Option N) :
    List (String × Sexp) → Option (List N)
  | [] => some []
  | (k, v) :: rest =>
    if k = "node" then
      match v.into_map with
      | some info =>
        match getk info "id" with
        | some (Sexp.atom (Atom.uint _)) =>
          match nwf (getk info "weight") with
          | some w => (nodesOf nwf rest).map (fun ns => w :: ns)
          | none => none
        | _ => none
      | none => none
    else nodesOf nwf rest

/-- Specification-level extraction of the (source id, target id, payload)
triples the edge entries of a graph section declare, in declaration order. -/
def edgesOf {E : Type} (ewf : Option Sexp → Option E) :
    List (String × Sexp) → Option (List (Nat × Nat × E))
  | [] => some []
  | (k, v) :: rest =>
    if k = "edge" then
      match v.into_map with
      | some info =>
        match getk info "source", getk info "target" with
        | some (Sexp.atom (Atom.uint s)), some (Sexp.atom (Atom.uint t)) =>
          match ewf (getk info "weight") with
          | some w => (edgesOf ewf rest).map (fun ts => (s, t, w) :: ts)
          | none => none
        | _, _ => none
      | none => none
    else edgesOf ewf rest

/-- Specification-level identifier map of a graph section: each well-shaped
node entry's external id paired with the node index it receives (its
position among the declared nodes, offset by the base). -/
def declaredIds (base : Nat) : List (String × Sexp) → NodeMap
  | [] => []
  | (k, v) :: rest =>
    if k = "node" then
      match v.into_map with
      | some info =>
        match getk info "id" with
        | some (Sexp.atom (Atom.uint id)) => (id, base) :: declaredIds (base + 1) rest
        | _ => declaredIds base rest
      | none => declaredIds base rest
    else declaredIds base rest

/-- Specification-level edge resolution: each (source id, target id,
payload) triple becomes an (index, index, payload) triple through the node
map; an undeclared id makes the whole resolution fail. -/
def resolveAll {E : Type} (nm : NodeMap) :
    List (Nat × Nat × E) → Option (List (Nat × Nat × E))
  | [] => some []
  | (s, t, w) :: rest =>
    match nmLookup nm s, nmLookup nm t with
    | some si, some ti => (resolveAll nm rest).map (fun rs => (si, ti, w) :: rs)
    | _, _ => none

/-- Processing a concatenation of entry lists runs the first list and, on
success, continues with the second from the reached state. -/
theorem processEntries_append {N E : Type} (nwf : Option Sexp → Option N)
    (ewf : Option Sexp → Option E) (xs ys : List (String × Sexp)) :
    ∀ (nm : NodeMap) (g : Graph N E) (es : List (Nat × Nat × E)),
    processEntries nwf ewf (xs ++ ys) nm g es =
      match processEntries nwf ewf xs nm g es with
      | Except.ok (nm', g', es') => processEntries nwf ewf ys nm' g' es'
      | Except.error msg => Except.error msg := by
  induction xs with
  | nil => intro nm g es; simp [processEntries]
  | cons e tail ih =>
    intro nm g es
    simp only [List.cons_append, processEntries]
    cases hpe : processEntry nwf ewf e.1 e.2 nm g es with
    | error msg => rfl
    | ok st =>
      obtain ⟨a, b, c⟩ := st
      exact ih a b c

/-- Success outcomes of one entry step, by entry key: a directed flag equal
to one leaves the state alone; a node entry appends a payload and records
a fresh id; an edge entry only buffers its triple. -/
theorem processEntry_ok_cases {N E : Type} (nwf : Option Sexp → Option N)
    (ewf : Option Sexp → Option E) (k : String) (v : Sexp) (nm : NodeMap)
    (g : Graph N E) (es : List (Nat × Nat × E)) (nm₁ : NodeMap) (g₁ : Graph N E)
    (es₁ : List (Nat × Nat × E))
    (h : processEntry nwf ewf k v nm g es = Except.ok (nm₁, g₁, es₁)) :
    (k = "directed" ∧ v.get_uint = some 1 ∧ nm₁ = nm ∧ g₁ = g ∧ es₁ = es) ∨
    (k = "node" ∧ ∃ info id w, v.into_map = some info ∧
        getk info "id" = some (Sexp.atom (Atom.uint id)) ∧
        nwf (getk info "weight") = some w ∧ nmLookup nm id = none ∧
        nm₁ = nm ++ [(id, g.nodes.length)] ∧
        g₁.nodes = g.nodes ++ [w] ∧ g₁.edges = g.edges ∧ es₁ = es) ∨
    (k = "edge" ∧ ∃ info s t w, v.into_map = some info ∧
        getk info "source" = some (Sexp.atom (Atom.uint s)) ∧
        getk info "target" = some (Sexp.atom (Atom.uint t)) ∧
        ewf (getk info "weight") = some w ∧
        nm₁ = nm ∧ g₁ = g ∧ es₁ = es ++ [(s, t, w)]) := by
  unfold processEntry at h
  split at h
  · -- directed branch
    rename_i hk
    split at h
    · rename_i heq
      simp only [Except.ok.injEq, Prod.mk.injEq] at h
      obtain ⟨rfl, rfl, rfl⟩ := h
      exact Or.inl ⟨hk, heq, rfl, rfl, rfl⟩
    · simp at h
  · rename_i hk1
    split at h
    · -- node branch
      rename_i hk2
      split at h
      · -- into_map = none
        simp at h
      · rename_i node_info heqm
        split at h
        · -- id found as uint
          rename_i node_id heq_id
          split at h
          · -- weight mapper produced a payload
            rename_i w heqw
            cases hlk : nmLookup nm node_id with
            | some old =>
              simp only [Graph.add_node, nmInsert, hlk] at h
              simp at h
            | none =>
              simp only [Graph.add_node, nmInsert, hlk, Except.ok.injEq, Prod.mk.injEq] at h
              obtain ⟨h1, h2, h3⟩ := h
              refine Or.inr (Or.inl ⟨hk2, node_info, node_id, w, heqm, heq_id, heqw, hlk, h1.symm, ?_, ?_, h3.symm⟩)
              · rw [← h2]
              · rw [← h2]
          · simp at h
        · simp at h
    · rename_i hk2
      split at h
      · -- edge branch
        rename_i hk3
        split at h
        · simp at h
        · rename_i edge_info heqm
          split at h
          · rename_i source heqs
            split at h
            · rename_i target heqt
              split at h
              · rename_i w heqw
                simp only [Except.ok.injEq, Prod.mk.injEq] at h
                obtain ⟨h1, h2, h3⟩ := h
                exact Or.inr (Or.inr ⟨hk3, edge_info, source, target, w, heqm, heqs, heqt, heqw, h1.symm, h2.symm, h3.symm⟩)
              · simp at h
            · simp at h
          · simp at h
      · simp at h

/-- Invariant of the entry loop on success: the reached state extends the
initial one by exactly the node payloads, buffered edge triples and
identifier bindings that the processed entries declare, and no edge is
inserted into the graph during the pass. -/
theorem processEntries_spec {N E : Type} (nwf : Option Sexp → Option N)
    (ewf : Option Sexp → Option E) (l : List (String × Sexp)) :
    ∀ (nm : NodeMap) (g : Graph N E) (es : List (Nat × Nat × E))
      (nm' : NodeMap) (g' : Graph N E) (es' : List (Nat × Nat × E)),
      processEntries nwf ewf l nm g es = Except.ok (nm', g', es') →
      ∃ ns ts, nodesOf nwf l = some ns ∧ edgesOf ewf l = some ts ∧
        g'.nodes = g.nodes ++ ns ∧ g'.edges = g.edges ∧ es' = es ++ ts ∧
        nm' = nm ++ declaredIds g.nodes.length l := by
  induction l with
  | nil =>
    intro nm g es nm' g' es' h
    simp only [processEntries, Except.ok.injEq, Prod.mk.injEq] at h
    obtain ⟨rfl, rfl, rfl⟩ := h
    exact ⟨[], [], rfl, rfl, by simp, rfl, by simp, by simp [declaredIds]⟩
  | cons e rest ih =>
    intro nm g es nm' g' es' h
    obtain ⟨k, v⟩ := e
    simp only [processEntries] at h
    cases hpe : processEntry nwf ewf k v nm g es with
    | error msg => rw [hpe] at h; simp at h
    | ok st =>
      obtain ⟨nm₁, g₁, es₁⟩ := st
      rw [hpe] at h
      have hrest : processEntries nwf ewf rest nm₁ g₁ es₁ = Except.ok (nm', g', es') := h
      rcases processEntry_ok_cases nwf ewf k v nm g es nm₁ g₁ es₁ hpe with
        ⟨hk, hu, rfl, rfl, rfl⟩ |
        ⟨hk, info, id, w, hm, hid, hw, hlk, rfl, hgn, hge, rfl⟩ |
        ⟨hk, info, s, t, w, hm, hs, ht, hw, rfl, rfl, rfl⟩
      · -- directed entry: state unchanged
        subst hk
        obtain ⟨ns, ts, h1, h2, h3, h4, h5, h6⟩ := ih _ _ _ nm' g' es' hrest
        refine ⟨ns, ts, ?_, ?_, h3, h4, h5, ?_⟩
        · simp [nodesOf, h1]
        · simp [edgesOf, h2]
        · simp [declaredIds, h6]
      · -- node entry: one payload appended, one id recorded
        subst hk
        obtain ⟨ns, ts, h1, h2, h3, h4, h5, h6⟩ := ih _ _ _ nm' g' es' hrest
        refine ⟨w :: ns, ts, ?_, ?_, ?_, ?_, h5, ?_⟩
        · simp [nodesOf, hm, hid, hw, h1]
        · simp [edgesOf, h2]
        · rw [h3, hgn]; simp
        · rw [h4, hge]
        · rw [h6, hgn]
          simp [declaredIds, hm, hid, List.append_assoc]
      · -- edge entry: triple buffered, graph and id map unchanged
        subst hk
        obtain ⟨ns, ts, h1, h2, h3, h4, h5, h6⟩ := ih _ _ _ nm' g' es' hrest
        refine ⟨ns, (s, t, w) :: ts, ?_, ?_, h3, h4, ?_, ?_⟩
        · simp [nodesOf, h1]
        · simp [edgesOf, hm, hs, ht, hw, h2]
        · rw [h5]; simp
        · simp [declaredIds, h6]

/-- The second pass on success appends exactly the resolved triples, in
order, and touches no node. -/
theorem resolveEdges_spec {N E : Type} (nm : NodeMap) (es : List (Nat × Nat × E)) :
    ∀ (g g' : Graph N E), resolveEdges nm es g = PResult.ok g' →
      ∃ rs, resolveAll nm es = some rs ∧ g'.nodes = g.nodes ∧
        g'.edges = g.edges ++ rs := by
  induction es with
  | nil =>
    intro g g' h
    simp only [resolveEdges, PResult.ok.injEq] at h
    subst h
    exact ⟨[], rfl, rfl, by simp⟩
  | cons e rest ih =>
    obtain ⟨s, t, w⟩ := e
    intro g g' h
    simp only [resolveEdges] at h
    cases hs : nmLookup nm s with
    | none => rw [hs] at h; simp at h
    | some si =>
      rw [hs] at h
      cases ht : nmLookup nm t with
      | none => rw [ht] at h; simp at h
      | some ti =>
        rw [ht] at h
        have h' : resolveEdges nm rest (g.add_edge si ti w) = PResult.ok g' := h
        obtain ⟨rs, h1, h2, h3⟩ := ih _ g' h'
        refine ⟨(si, ti, w) :: rs, ?_, ?_, ?_⟩
        · simp [resolveAll, hs, ht, h1]
        · simpa [Graph.add_edge] using h2
        · rw [h3]; simp [Graph.add_edge]

/-- Every triple of a successfully resolved buffer shows up, resolved
through the node map, among the produced edges. -/
theorem resolveAll_mem {E : Type} (nm : NodeMap) :
    ∀ (ts rs : List (Nat × Nat × E)) (s t : Nat) (w : E),
      resolveAll nm ts = some rs → (s, t, w) ∈ ts →
      ∃ si ti, nmLookup nm s = some si ∧ nmLookup nm t = some ti ∧
        (si, ti, w) ∈ rs := by
  intro ts
  induction ts with
  | nil => intro rs s t w _ hmem; simp at hmem
  | cons e rest ih =>
    obtain ⟨a, b, c⟩ := e
    intro rs s t w hres hmem
    simp only [resolveAll] at hres
    cases ha : nmLookup nm a with
    | none => rw [ha] at hres; simp at hres
    | some ai =>
      rw [ha] at hres
      cases hb : nmLookup nm b with
      | none => rw [hb] at hres; simp at hres
      | some bi =>
        rw [hb] at hres
        cases hrest : resolveAll nm rest with
        | none => rw [hrest] at hres; simp at hres
        | some rs' =>
          rw [hrest] at hres
          simp only [Option.map_some', Option.some.injEq] at hres
          subst hres
          rcases List.mem_cons.mp hmem with heq | htail
          · simp only [Prod.mk.injEq] at heq
            obtain ⟨rfl, rfl, rfl⟩ := heq
            exact ⟨ai, bi, ha, hb, List.mem_cons_self _ _⟩
          · obtain ⟨si, ti, h1, h2, h3⟩ := ih rs' s t w hrest htail
            exact ⟨si, ti, h1, h2, List.mem_cons_of_mem _ h3⟩

/-- Declared node payloads of a concatenation of sections. -/
theorem nodesOf_append {N : Type} (nwf : Option Sexp → Option N)
    (xs ys : List (String × Sexp)) :
    nodesOf nwf (xs ++ ys) =
      (nodesOf nwf xs).bind (fun a => (nodesOf nwf ys).map (fun b => a ++ b)) := by
  induction xs with
  | nil => cases h : nodesOf nwf ys <;> simp [nodesOf, h]
  | cons e rest ih =>
    obtain ⟨k, v⟩ := e
    simp only [List.cons_append, nodesOf]
    by_cases hk : k = "node"
    · rw [if_pos hk, if_pos hk]
      split
      · split
        · split
          · rw [List.append_eq, ih]
            cases hr : nodesOf nwf rest <;> cases hy : nodesOf nwf ys <;> simp [hr, hy]
          · simp
        · simp
      · simp
    · rw [if_neg hk, if_neg hk]
      exact ih

/-- Declared edge triples of a concatenation of sections. -/
theorem edgesOf_append {E : Type} (ewf : Option Sexp → Option E)
    (xs ys : List (String × Sexp)) :
    edgesOf ewf (xs ++ ys) =
      (edgesOf ewf xs).bind (fun a => (edgesOf ewf ys).map (fun b => a ++ b)) := by
  induction xs with
  | nil => cases h : edgesOf ewf ys <;> simp [edgesOf, h]
  | cons e rest ih =>
    obtain ⟨k, v⟩ := e
    simp only [List.cons_append, edgesOf]
    by_cases hk : k = "edge"
    · rw [if_pos hk, if_pos hk]
      split
      · split
        · split
          · rw [List.append_eq, ih]
            cases hr : edgesOf ewf rest <;> cases hy : edgesOf ewf ys <;> simp [hr, hy]
          · simp
        · simp
      · simp
    · rw [if_neg hk, if_neg hk]
      exact ih

/-- Appending an edge entry declares no node identifier. -/
theorem declaredIds_append_edge (v : Sexp) (l : List (String × Sexp)) :
    ∀ base, declaredIds base (l ++ [("edge", v)]) = declaredIds base l := by
  induction l with
  | nil => intro base; simp [declaredIds]
  | cons e rest ih =>
    obtain ⟨k, u⟩ := e
    intro base
    simp only [List.cons_append, declaredIds]
    by_cases hk : k = "node"
    · rw [if_pos hk, if_pos hk]
      split
      · split
        · simp [ih]
        · exact ih base
      · exact ih base
    · rw [if_neg hk, if_neg hk]
      exact ih base

/-- A successful run of the interpreter is fully described at the
specification level: the graph's nodes are the declared payloads in order
and its edges are the declared triples resolved through the declared
identifier map. -/
theorem sexp_to_graph_ok_spec {N E : Type} (nwf : Option Sexp → Option N)
    (ewf : Option Sexp → Option E) (doc : Sexp) (dm sec : List (String × Sexp))
    (g : Graph N E) (hdoc : doc.into_map = some dm)
    (hsec : getk dm "graph" = some (Sexp.map sec))
    (hok : sexp_to_graph doc nwf ewf = PResult.ok g) :
    nodesOf nwf sec = some g.nodes ∧
    ∃ ts, edgesOf ewf sec = some ts ∧
      resolveAll (declaredIds 0 sec) ts = some g.edges := by
  unfold sexp_to_graph at hok
  split at hok
  · rename_i heq
    rw [hdoc] at heq
    exact Option.noConfusion heq
  · rename_i m heq
    rw [hdoc] at heq
    injection heq with heq'
    subst heq'
    split at hok
    · rename_i v heq2
      rw [hsec] at heq2
      injection heq2 with heq2'
      injection heq2' with heq2''
      subst heq2''
      split at hok
      · rename_i msg heq3
        simp at hok
      · rename_i nm g0 es heq3
        obtain ⟨ns, ts, h1, h2, h3, h4, h5, h6⟩ :=
          processEntries_spec nwf ewf sec [] Graph.new [] nm g0 es heq3
        obtain ⟨rs, r1, r2, r3⟩ := resolveEdges_spec nm es g0 g hok
        constructor
        · rw [h1, r2, h3]; simp [Graph.new]
        · refine ⟨ts, h2, ?_⟩
          have hnm : nm = declaredIds 0 sec := by simpa [Graph.new] using h6
          have hes : es = ts := by simpa using h5
          rw [← hnm, ← hes, r1, r3, h4]
          simp [Graph.new]
    · simp at hok

/-- If the walk reaches an entry that fails, the whole parse returns that
entry's error. -/
theorem sexp_to_graph_entry_error {N E : Type} (nwf : Option Sexp → Option N)
    (ewf : Option Sexp → Option E) (doc : Sexp) (dm : List (String × Sexp))
    (pre post : List (String × Sexp)) (k : String) (v : Sexp) (nm : NodeMap)
    (g : Graph N E) (es : List (Nat × Nat × E)) (msg : String)
    (hdoc : doc.into_map = some dm)
    (hsec : getk dm "graph" = some (Sexp.map (pre ++ (k, v) :: post)))
    (hpre : processEntries nwf ewf pre [] Graph.new [] = Except.ok (nm, g, es))
    (hstep : processEntry nwf ewf k v nm g es = Except.error msg) :
    sexp_to_graph doc nwf ewf = PResult.err msg := by
  simp only [sexp_to_graph, hdoc, hsec, processEntries_append, hpre, processEntries, hstep]

/-- A directed entry whose value is not the unsigned integer one fails. -/
theorem processEntry_directed_not_one {N E : Type} (nwf : Option Sexp → Option N)
    (ewf : Option Sexp → Option E) (v : Sexp) (nm : NodeMap) (g : Graph N E)
    (es : List (Nat × Nat × E)) (hv : v.get_uint ≠ some 1) :
    processEntry nwf ewf "directed" v nm g es =
      Except.error "only directed graph supported" := by
  unfold processEntry
  rw [if_pos rfl]
  split
  · rename_i heq
    exact absurd heq hv
  · rfl

/-- A well-shaped node entry whose id is already recorded fails with the
duplicate-id error (the weight mapper has produced a payload). -/
theorem processEntry_node_dup {N E : Type} (nwf : Option Sexp → Option N)
    (ewf : Option Sexp → Option E) (v : Sexp) (info : List (String × Sexp))
    (nm : NodeMap) (g : Graph N E) (es : List (Nat × Nat × E)) (id j : Nat) (w : N)
    (hm : v.into_map = some info)
    (hid : getk info "id" = some (Sexp.atom (Atom.uint id)))
    (hw : nwf (getk info "weight") = some w)
    (hdup : nmLookup nm id = some j) :
    processEntry nwf ewf "node" v nm g es = Except.error "duplicate node-id" := by
  unfold processEntry
  simp [hm, hid, hw, Graph.add_node, nmInsert, hdup]

/-- A well-shaped node entry whose weight subtree the node-weight mapper
rejects fails with the invalid-node-weight error. -/
theorem processEntry_node_bad_weight {N E : Type} (nwf : Option Sexp → Option N)
    (ewf : Option Sexp → Option E) (v : Sexp) (info : List (String × Sexp))
    (nm : NodeMap) (g : Graph N E) (es : List (Nat × Nat × E)) (id : Nat)
    (hm : v.into_map = some info)
    (hid : getk info "id" = some (Sexp.atom (Atom.uint id)))
    (hw : nwf (getk info "weight") = none) :
    processEntry nwf ewf "node" v nm g es = Except.error "invalid node weight" := by
  unfold processEntry
  simp [hm, hid, hw]

/-- A well-shaped edge entry whose weight subtree the edge-weight mapper
rejects fails with the invalid-edge-weight error. -/
theorem processEntry_edge_bad_weight {N E : Type} (nwf : Option Sexp → Option N)
    (ewf : Option Sexp → Option E) (v : Sexp) (info : List (String × Sexp))
    (nm : NodeMap) (g : Graph N E) (es : List (Nat × Nat × E)) (s t : Nat)
    (hm : v.into_map = some info)
    (hs : getk info "source" = some (Sexp.atom (Atom.uint s)))
    (ht : getk info "target" = some (Sexp.atom (Atom.uint t)))
    (hw : ewf (getk info "weight") = none) :
    processEntry nwf ewf "edge" v nm g es = Except.error "invalid edge weight" := by
  unfold processEntry
  simp [hm, hs, ht, hw]

/-- A constant weight mapper that accepts every weight subtree. -/
def constWeight : Option Sexp → Option Nat := fun _ => some 0

/-- A weight mapper that accepts an absent weight subtree and rejects every
present one. -/
def rejectPresent : Option Sexp → Option Nat := fun o =>
  match o with
  | none => some 0
  | some _ => none

/-- Shorthand for an unsigned-integer atom. -/
def uintAtom (n : Nat) : Sexp := Sexp.atom (Atom.uint n)

/-- A document whose graph section declares node 1 and an edge to the
undeclared identifier 99. -/
def exUnknownEndpoint : Sexp := Sexp.map [("graph", Sexp.map
  [("directed", uintAtom 1),
   ("node", Sexp.map [("id", uintAtom 1)]),
   ("edge", Sexp.map [("source", uintAtom 1), ("target", uintAtom 99)])])]

/-- A document whose graph section has no directed entry at all. -/
def exNoDirected : Sexp :=
  Sexp.map [("graph", Sexp.map [("node", Sexp.map [("id", uintAtom 1)])])]

/-- C1: the claim says an edge whose source or target identifier was never
declared by a node entry makes the parse fail with an explicit
endpoint-resolution error and never panic.  The code instead indexes the
node map unconditionally during edge resolution: on a document with an
edge to the undeclared id 99 the interpreter panics (crash) instead of
returning an error value. -/
theorem c1_unknown_endpoint_crash :
    sexp_to_graph exUnknownEndpoint constWeight constWeight = PResult.crash := rfl

/-- C2 counterexample: a document whose graph section lacks a directed
entry parses successfully, so the claim that absence of the entry fails
with "only directed graph supported" is false on the code. -/
theorem c2_missing_directed_succeeds :
    sexp_to_graph exNoDirected constWeight constWeight =
      PResult.ok (Graph.mk [0] []) := rfl

/-- C2 (amended): if the walk reaches a directed entry whose value is
anything other than the unsigned integer 1 (all entries before it being
accepted), parsing fails with "only directed graph supported"; a document
lacking a directed entry is not rejected. -/
theorem c2_directed_value_not_one_fails {N E : Type} (nwf : Option Sexp → Option N)
    (ewf : Option Sexp → Option E) (doc : Sexp) (dm pre post : List (String × Sexp))
    (v : Sexp) (nm : NodeMap) (g : Graph N E) (es : List (Nat × Nat × E))
    (hdoc : doc.into_map = some dm)
    (hsec : getk dm "graph" = some (Sexp.map (pre ++ ("directed", v) :: post)))
    (hpre : processEntries nwf ewf pre [] Graph.new [] = Except.ok (nm, g, es))
    (hv : v.get_uint ≠ some 1) :
    sexp_to_graph doc nwf ewf = PResult.err "only directed graph supported" :=
  sexp_to_graph_entry_error nwf ewf doc dm pre post "directed" v nm g es _ hdoc hsec hpre
    (processEntry_directed_not_one nwf ewf v nm g es hv)

/-- C2 witness: a graph section whose first entry is directed 0 fails with
the directedness error. -/
theorem c2_directed_value_not_one_fails_witness :
    sexp_to_graph (Sexp.map [("graph", Sexp.map [("directed", uintAtom 0)])])
      constWeight constWeight = PResult.err "only directed graph supported" :=
  c2_directed_value_not_one_fails constWeight constWeight _ _ [] [] (uintAtom 0) [] Graph.new []
    rfl rfl rfl (by decide)

/-- C3: a node entry whose id equals the id of an earlier accepted node
entry — every entry before it accepted and the node-weight mapper
producing a payload for the duplicate — makes parsing fail with
"duplicate node-id", however many entries precede it. -/
theorem c3_duplicate_node_id_fails {N E : Type} (nwf : Option Sexp → Option N)
    (ewf : Option Sexp → Option E) (doc : Sexp) (dm pre post : List (String × Sexp))
    (v : Sexp) (info : List (String × Sexp)) (nm : NodeMap) (g : Graph N E)
    (es : List (Nat × Nat × E)) (id j : Nat) (w : N)
    (hdoc : doc.into_map = some dm)
    (hsec : getk dm "graph" = some (Sexp.map (pre ++ ("node", v) :: post)))
    (hpre : processEntries nwf ewf pre [] Graph.new [] = Except.ok (nm, g, es))
    (hm : v.into_map = some info)
    (hid : getk info "id" = some (Sexp.atom (Atom.uint id)))
    (hw : nwf (getk info "weight") = some w)
    (hdup : nmLookup nm id = some j) :
    sexp_to_graph doc nwf ewf = PResult.err "duplicate node-id" :=
  sexp_to_graph_entry_error nwf ewf doc dm pre post "node" v nm g es _ hdoc hsec hpre
    (processEntry_node_dup nwf ewf v info nm g es id j w hm hid hw hdup)

/-- C3 witness: two node entries both declaring id 5 fail with the
duplicate-id error. -/
theorem c3_duplicate_node_id_fails_witness :
    sexp_to_graph (Sexp.map [("graph", Sexp.map
        [("node", Sexp.map [("id", uintAtom 5)]),
         ("node", Sexp.map [("id", uintAtom 5)])])])
      constWeight constWeight = PResult.err "duplicate node-id" :=
  c3_duplicate_node_id_fails constWeight constWeight _ _
    [("node", Sexp.map [("id", uintAtom 5)])] [] (Sexp.map [("id", uintAtom 5)])
    [("id", uintAtom 5)] [(5, 0)] (Graph.mk [0] []) [] 5 0 0
    rfl rfl rfl rfl rfl rfl rfl

/-- C4: edge entries are only buffered during the pass (the graph's edge
list never grows while entries are processed) and are inserted only after
the pass completes, so an edge entry placed before the node entries that
declare its endpoints resolves to the same edge — same endpoint indices,
same payload — as when it is placed after them. -/
theorem c4_edges_deferred {N E : Type} (nwf : Option Sexp → Option N)
    (ewf : Option Sexp → Option E) :
    (∀ (l : List (String × Sexp)) (nm : NodeMap) (g : Graph N E)
        (es : List (Nat × Nat × E)) (nm' : NodeMap) (g' : Graph N E)
        (es' : List (Nat × Nat × E)),
      processEntries nwf ewf l nm g es = Except.ok (nm', g', es') →
      g'.edges = g.edges) ∧
    (∀ (l : List (String × Sexp)) (v : Sexp) (info : List (String × Sexp))
        (s t : Nat) (w : E) (g₁ g₂ : Graph N E),
      v.into_map = some info →
      getk info "source" = some (Sexp.atom (Atom.uint s)) →
      getk info "target" = some (Sexp.atom (Atom.uint t)) →
      ewf (getk info "weight") = some w →
      sexp_to_graph (Sexp.map [("graph", Sexp.map (("edge", v) :: l))]) nwf ewf =
        PResult.ok g₁ →
      sexp_to_graph (Sexp.map [("graph", Sexp.map (l ++ [("edge", v)]))]) nwf ewf =
        PResult.ok g₂ →
      g₁.nodes = g₂.nodes ∧
        ∃ si ti, (si, ti, w) ∈ g₁.edges ∧ (si, ti, w) ∈ g₂.edges) := by
  constructor
  · intro l nm g es nm' g' es' h
    obtain ⟨ns, ts, _, _, _, h4, _, _⟩ :=
      processEntries_spec nwf ewf l nm g es nm' g' es' h
    exact h4
  · intro l v info s t w g₁ g₂ hm hs ht hw h1 h2
    obtain ⟨n1, ts₁, he1, hr1⟩ :=
      sexp_to_graph_ok_spec nwf ewf
        (Sexp.map [("graph", Sexp.map (("edge", v) :: l))])
        [("graph", Sexp.map (("edge", v) :: l))] (("edge", v) :: l) g₁ rfl rfl h1
    obtain ⟨n2, ts₂, he2, hr2⟩ :=
      sexp_to_graph_ok_spec nwf ewf
        (Sexp.map [("graph", Sexp.map (l ++ [("edge", v)]))])
        [("graph", Sexp.map (l ++ [("edge", v)]))] (l ++ [("edge", v)]) g₂ rfl rfl h2
    have hn1 : nodesOf nwf (("edge", v) :: l) = nodesOf nwf l := by simp [nodesOf]
    have hd1 : declaredIds 0 (("edge", v) :: l) = declaredIds 0 l := by simp [declaredIds]
    have hn2 : nodesOf nwf (l ++ [("edge", v)]) = nodesOf nwf l := by
      rw [nodesOf_append]
      cases hl : nodesOf nwf l <;> simp [nodesOf]
    have hd2 : declaredIds 0 (l ++ [("edge", v)]) = declaredIds 0 l :=
      declaredIds_append_edge v l 0
    constructor
    · rw [hn1] at n1
      rw [hn2] at n2
      exact Option.some.inj (n1.symm.trans n2)
    · have hcomp1 : edgesOf ewf (("edge", v) :: l) =
          (edgesOf ewf l).map (fun ts => (s, t, w) :: ts) := by
        simp [edgesOf, hm, hs, ht, hw]
      rw [hcomp1] at he1
      cases hl : edgesOf ewf l with
      | none => rw [hl] at he1; simp at he1
      | some tl =>
        rw [hl] at he1
        simp only [Option.map_some', Option.some.injEq] at he1
        subst he1
        have hcomp2 : edgesOf ewf (l ++ [("edge", v)]) = some (tl ++ [(s, t, w)]) := by
          rw [edgesOf_append, hl]
          simp [edgesOf, hm, hs, ht, hw]
        rw [hcomp2] at he2
        injection he2 with he2'
        subst he2'
        rw [hd1] at hr1
        rw [hd2] at hr2
        obtain ⟨si, ti, hsi, hti, hmem1⟩ :=
          resolveAll_mem (declaredIds 0 l) _ _ s t w hr1 (List.mem_cons_self _ _)
        obtain ⟨si', ti', hsi', hti', hmem2⟩ :=
          resolveAll_mem (declaredIds 0 l) _ _ s t w hr2 (by simp)
        rw [hsi] at hsi'
        rw [hti] at hti'
        injection hsi' with hsieq
        injection hti' with htieq
        subst hsieq
        subst htieq
        exact ⟨si, ti, hmem1, hmem2⟩

/-- C4 witness: a one-node pass inserts no edge, and the edge 1 to 2
declared before its two endpoint nodes resolves to the indices 0 and 1,
exactly as when it is declared after them. -/
theorem c4_edges_deferred_witness :
    ((Graph.mk [0] [] : Graph Nat Nat).edges = (Graph.new : Graph Nat Nat).edges) ∧
    ((Graph.mk [0, 0] [(0, 1, 0)] : Graph Nat Nat).nodes =
        (Graph.mk [0, 0] [(0, 1, 0)] : Graph Nat Nat).nodes ∧
      ∃ si ti, (si, ti, (0 : Nat)) ∈ (Graph.mk [0, 0] [(0, 1, 0)] : Graph Nat Nat).edges ∧
        (si, ti, 0) ∈ (Graph.mk [0, 0] [(0, 1, 0)] : Graph Nat Nat).edges) := by
  constructor
  · exact (c4_edges_deferred constWeight constWeight).1
      [("node", Sexp.map [("id", uintAtom 1)])] [] Graph.new [] [(1, 0)]
      (Graph.mk [0] []) [] rfl
  · exact (c4_edges_deferred constWeight constWeight).2
      [("node", Sexp.map [("id", uintAtom 1)]), ("node", Sexp.map [("id", uintAtom 2)])]
      (Sexp.map [("source", uintAtom 1), ("target", uintAtom 2)]) _ 1 2 0
      (Graph.mk [0, 0] [(0, 1, 0)]) (Graph.mk [0, 0] [(0, 1, 0)])
      rfl rfl rfl rfl rfl rfl

/-- C5: on every successful parse the graph is directed, its nodes are
exactly the declared node payloads in declaration order (the i-th node's
payload is the node-weight mapper applied to that entry's optional weight
subtree), and its edges are exactly the declared edge triples, in order,
each connecting the index of the node declared with the source identifier
to the index of the node declared with the target identifier. -/
theorem c5_success_shape {N E : Type} (nwf : Option Sexp → Option N)
    (ewf : Option Sexp → Option E) (doc : Sexp) (dm sec : List (String × Sexp))
    (g : Graph N E) (hdoc : doc.into_map = some dm)
    (hsec : getk dm "graph" = some (Sexp.map sec))
    (hok : sexp_to_graph doc nwf ewf = PResult.ok g) :
    g.is_directed = true ∧
    nodesOf nwf sec = some g.nodes ∧
    ∃ ts, edgesOf ewf sec = some ts ∧
      resolveAll (declaredIds 0 sec) ts = some g.edges := by
  obtain ⟨h1, h2⟩ := sexp_to_graph_ok_spec nwf ewf doc dm sec g hdoc hsec hok
  exact ⟨rfl, h1, h2⟩

/-- C5 witness: the two-node, two-edge document of the crate's own test,
with constant weight mappers. -/
theorem c5_success_shape_witness :
    (Graph.mk [0, 0] [(0, 1, 0), (1, 0, 0)] : Graph Nat Nat).is_directed = true ∧
    nodesOf constWeight
        [("directed", uintAtom 1),
         ("node", Sexp.map [("id", uintAtom 1)]),
         ("node", Sexp.map [("id", uintAtom 2)]),
         ("edge", Sexp.map [("source", uintAtom 1), ("target", uintAtom 2)]),
         ("edge", Sexp.map [("source", uintAtom 2), ("target", uintAtom 1)])] =
      some (Graph.mk [0, 0] [(0, 1, 0), (1, 0, 0)] : Graph Nat Nat).nodes ∧
    ∃ ts, edgesOf constWeight
        [("directed", uintAtom 1),
         ("node", Sexp.map [("id", uintAtom 1)]),
         ("node", Sexp.map [("id", uintAtom 2)]),
         ("edge", Sexp.map [("source", uintAtom 1), ("target", uintAtom 2)]),
         ("edge", Sexp.map [("source", uintAtom 2), ("target", uintAtom 1)])] = some ts ∧
      resolveAll (declaredIds 0
          [("directed", uintAtom 1),
           ("node", Sexp.map [("id", uintAtom 1)]),
           ("node", Sexp.map [("id", uintAtom 2)]),
           ("edge", Sexp.map [("source", uintAtom 1), ("target", uintAtom 2)]),
           ("edge", Sexp.map [("source", uintAtom 2), ("target", uintAtom 1)])]) ts =
        some (Graph.mk [0, 0] [(0, 1, 0), (1, 0, 0)] : Graph Nat Nat).edges :=
  c5_success_shape constWeight constWeight
    (Sexp.map [("graph", Sexp.map
      [("directed", uintAtom 1),
       ("node", Sexp.map [("id", uintAtom 1)]),
       ("node", Sexp.map [("id", uintAtom 2)]),
       ("edge", Sexp.map [("source", uintAtom 1), ("target", uintAtom 2)]),
       ("edge", Sexp.map [("source", uintAtom 2), ("target", uintAtom 1)])])])
    _ _ (Graph.mk [0, 0] [(0, 1, 0), (1, 0, 0)]) rfl rfl rfl

/-- C6: a well-shaped node entry whose weight subtree the node-weight
mapper rejects makes the whole parse fail with "invalid node weight", and
a well-shaped edge entry whose weight subtree the edge-weight mapper
rejects makes it fail with "invalid edge weight", even when every other
entry is accepted; no graph is returned. -/
theorem c6_weight_rejection_fails {N E : Type} (nwf : Option Sexp → Option N)
    (ewf : Option Sexp → Option E) :
    (∀ (doc : Sexp) (dm pre post : List (String × Sexp)) (v : Sexp)
        (info : List (String × Sexp)) (nm : NodeMap) (g : Graph N E)
        (es : List (Nat × Nat × E)) (id : Nat),
      doc.into_map = some dm →
      getk dm "graph" = some (Sexp.map (pre ++ ("node", v) :: post)) →
      processEntries nwf ewf pre [] Graph.new [] = Except.ok (nm, g, es) →
      v.into_map = some info →
      getk info "id" = some (Sexp.atom (Atom.uint id)) →
      nwf (getk info "weight") = none →
      sexp_to_graph doc nwf ewf = PResult.err "invalid node weight") ∧
    (∀ (doc : Sexp) (dm pre post : List (String × Sexp)) (v : Sexp)
        (info : List (String × Sexp)) (nm : NodeMap) (g : Graph N E)
        (es : List (Nat × Nat × E)) (s t : Nat),
      doc.into_map = some dm →
      getk dm "graph" = some (Sexp.map (pre ++ ("edge", v) :: post)) →
      processEntries nwf ewf pre [] Graph.new [] = Except.ok (nm, g, es) →
      v.into_map = some info →
      getk info "source" = some (Sexp.atom (Atom.uint s)) →
      getk info "target" = some (Sexp.atom (Atom.uint t)) →
      ewf (getk info "weight") = none →
      sexp_to_graph doc nwf ewf = PResult.err "invalid edge weight") := by
  constructor
  · intro doc dm pre post v info nm g es id hdoc hsec hpre hm hid hw
    exact sexp_to_graph_entry_error nwf ewf doc dm pre post "node" v nm g es _ hdoc hsec hpre
      (processEntry_node_bad_weight nwf ewf v info nm g es id hm hid hw)
  · intro doc dm pre post v info nm g es s t hdoc hsec hpre hm hs ht hw
    exact sexp_to_graph_entry_error nwf ewf doc dm pre post "edge" v nm g es _ hdoc hsec hpre
      (processEntry_edge_bad_weight nwf ewf v info nm g es s t hm hs ht hw)

/-- C6 witness: a node entry with a present weight the mapper rejects
fails with "invalid node weight", and an edge entry with a present weight
the mapper rejects fails with "invalid edge weight". -/
theorem c6_weight_rejection_fails_witness :
    sexp_to_graph (Sexp.map [("graph", Sexp.map
        [("node", Sexp.map [("id", uintAtom 1), ("weight", uintAtom 7)])])])
      rejectPresent constWeight = PResult.err "invalid node weight" ∧
    sexp_to_graph (Sexp.map [("graph", Sexp.map
        [("edge", Sexp.map
          [("source", uintAtom 1), ("target", uintAtom 2), ("weight", uintAtom 7)])])])
      constWeight rejectPresent = PResult.err "invalid edge weight" :=
  ⟨(c6_weight_rejection_fails rejectPresent constWeight).1 _ _ [] []
      (Sexp.map [("id", uintAtom 1), ("weight", uintAtom 7)])
      [("id", uintAtom 1), ("weight", uintAtom 7)] [] Graph.new [] 1
      rfl rfl rfl rfl rfl rfl,
   (c6_weight_rejection_fails constWeight rejectPresent).2 _ _ [] []
      (Sexp.map [("source", uintAtom 1), ("target", uintAtom 2), ("weight", uintAtom 7)])
      [("source", uintAtom 1), ("target", uintAtom 2), ("weight", uintAtom 7)]
      [] Graph.new [] 1 2
      rfl rfl rfl rfl rfl rfl rfl⟩

/-- C7: the token adapter rewrites an open bracket to an open curly and a
close bracket to a close curly, leaves every other token unchanged, and
preserves the number and order of tokens in the stream. -/
theorem c7_token_adapter (ts : List Token) :
    adaptTokens ts = ts.map adaptToken ∧
    (adaptTokens ts).length = ts.length ∧
    (∀ i : Nat, (adaptTokens ts)[i]? = (ts[i]?).map adaptToken) ∧
    adaptToken Token.openBracket = Token.openCurly ∧
    adaptToken Token.closeBracket = Token.closeCurly ∧
    adaptToken Token.openCurly = Token.openCurly ∧
    adaptToken Token.closeCurly = Token.closeCurly ∧
    (∀ s, adaptToken (Token.scalar s) = Token.scalar s) ∧
    (∀ s, adaptToken (Token.stringLit s) = Token.stringLit s) ∧
    (∀ s, adaptToken (Token.comment s) = Token.comment s) := by
  refine ⟨rfl, by simp [adaptTokens], fun i => ?_, rfl, rfl, rfl, rfl,
    fun s => rfl, fun s => rfl, fun s => rfl⟩
  simp [adaptTokens]

/-- C8: a parsed tree that is not a map fails with the structural error;
a map without a graph key, or whose graph key holds a non-map, fails with
"no graph given or invalid"; and top-level keys other than graph are
irrelevant — two top-level maps agreeing on the graph key parse alike. -/
theorem c8_top_level_shape {N E : Type} (nwf : Option Sexp → Option N)
    (ewf : Option Sexp → Option E) :
    (∀ a, sexp_to_graph (Sexp.atom a) nwf ewf = PResult.err "not a map") ∧
    (∀ items, sexp_to_graph (Sexp.list items) nwf ewf = PResult.err "not a map") ∧
    (∀ m, getk m "graph" = none →
      sexp_to_graph (Sexp.map m) nwf ewf = PResult.err "no graph given or invalid") ∧
    (∀ m v, getk m "graph" = some v → v.into_map = none →
      sexp_to_graph (Sexp.map m) nwf ewf = PResult.err "no graph given or invalid") ∧
    (∀ m₁ m₂, getk m₁ "graph" = getk m₂ "graph" →
      sexp_to_graph (Sexp.map m₁) nwf ewf = sexp_to_graph (Sexp.map m₂) nwf ewf) := by
  refine ⟨fun a => rfl, fun items => rfl, ?_, ?_, ?_⟩
  · intro m hm
    simp [sexp_to_graph, Sexp.into_map, hm]
  · intro m v hm hv
    cases v with
    | atom a => simp [sexp_to_graph, Sexp.into_map, hm]
    | list items => simp [sexp_to_graph, Sexp.into_map, hm]
    | map pairs => simp [Sexp.into_map] at hv
  · intro m₁ m₂ h
    simp only [sexp_to_graph, Sexp.into_map]
    rw [h]

/-- C8 witness: an atom fails as not a map; an empty top map and a top map
whose graph key holds an atom fail with the missing-graph error; an extra
top-level key next to a graph section does not change the result. -/
theorem c8_top_level_shape_witness :
    sexp_to_graph (Sexp.atom Atom.unit) constWeight constWeight =
      PResult.err "not a map" ∧
    sexp_to_graph (Sexp.map []) constWeight constWeight =
      PResult.err "no graph given or invalid" ∧
    sexp_to_graph (Sexp.map [("graph", Sexp.atom Atom.unit)]) constWeight constWeight =
      PResult.err "no graph given or invalid" ∧
    sexp_to_graph (Sexp.map [("graph", Sexp.map [])]) constWeight constWeight =
      sexp_to_graph (Sexp.map [("graph", Sexp.map []), ("version", uintAtom 2)])
        constWeight constWeight :=
  ⟨(c8_top_level_shape constWeight constWeight).1 Atom.unit,
   (c8_top_level_shape constWeight constWeight).2.2.1 [] rfl,
   (c8_top_level_shape constWeight constWeight).2.2.2.1
     [("graph", Sexp.atom Atom.unit)] (Sexp.atom Atom.unit) rfl rfl,
   (c8_top_level_shape constWeight constWeight).2.2.2.2
     [("graph", Sexp.map [])] [("graph", Sexp.map []), ("version", uintAtom 2)] rfl⟩

/-- A node entry step depends only on the id and weight lookups of its
record. -/
theorem processEntry_node_congr {N E : Type} (nwf : Option Sexp → Option N)
    (ewf : Option Sexp → Option E) (v v' : Sexp) (info info' : List (String × Sexp))
    (nm : NodeMap) (g : Graph N E) (es : List (Nat × Nat × E))
    (hm : v.into_map = some info) (hm' : v'.into_map = some info')
    (hid : getk info "id" = getk info' "id")
    (hw : getk info "weight" = getk info' "weight") :
    processEntry nwf ewf "node" v nm g es = processEntry nwf ewf "node" v' nm g es := by
  unfold processEntry
  rw [if_neg (by decide : ¬("node" = "directed")), if_neg (by decide : ¬("node" = "directed"))]
  rw [if_pos (rfl : ("node" : String) = "node"), if_pos (rfl : ("node" : String) = "node")]
  simp only [hm, hm', hid, hw]

/-- An edge entry step depends only on the source, target and weight
lookups of its record. -/
theorem processEntry_edge_congr {N E : Type} (nwf : Option Sexp → Option N)
    (ewf : Option Sexp → Option E) (v v' : Sexp) (info info' : List (String × Sexp))
    (nm : NodeMap) (g : Graph N E) (es : List (Nat × Nat × E))
    (hm : v.into_map = some info) (hm' : v'.into_map = some info')
    (hs : getk info "source" = getk info' "source")
    (ht : getk info "target" = getk info' "target")
    (hw : getk info "weight" = getk info' "weight") :
    processEntry nwf ewf "edge" v nm g es = processEntry nwf ewf "edge" v' nm g es := by
  unfold processEntry
  rw [if_neg (by decide : ¬("edge" = "directed")), if_neg (by decide : ¬("edge" = "directed"))]
  rw [if_neg (by decide : ¬("edge" = "node")), if_neg (by decide : ¬("edge" = "node"))]
  rw [if_pos (rfl : ("edge" : String) = "edge"), if_pos (rfl : ("edge" : String) = "edge")]
  simp only [hm, hm', hs, ht, hw]

/-- C9: in a node entry the weight mapper runs (and the node is created)
before the duplicate-identifier check, so a well-shaped node entry whose
id duplicates an earlier one but whose weight the mapper rejects fails
with "invalid node weight", not with "duplicate node-id". -/
theorem c9_weight_checked_before_duplicate {N E : Type} (nwf : Option Sexp → Option N)
    (ewf : Option Sexp → Option E) (doc : Sexp) (dm pre post : List (String × Sexp))
    (v : Sexp) (info : List (String × Sexp)) (nm : NodeMap) (g : Graph N E)
    (es : List (Nat × Nat × E)) (id j : Nat)
    (hdoc : doc.into_map = some dm)
    (hsec : getk dm "graph" = some (Sexp.map (pre ++ ("node", v) :: post)))
    (hpre : processEntries nwf ewf pre [] Graph.new [] = Except.ok (nm, g, es))
    (hm : v.into_map = some info)
    (hid : getk info "id" = some (Sexp.atom (Atom.uint id)))
    (hdup : nmLookup nm id = some j)
    (hw : nwf (getk info "weight") = none) :
    sexp_to_graph doc nwf ewf = PResult.err "invalid node weight" ∧
    sexp_to_graph doc nwf ewf ≠ PResult.err "duplicate node-id" := by
  have h := sexp_to_graph_entry_error nwf ewf doc dm pre post "node" v nm g es _ hdoc hsec hpre
    (processEntry_node_bad_weight nwf ewf v info nm g es id hm hid hw)
  refine ⟨h, ?_⟩
  rw [h]
  intro hc
  injection hc with hc'
  exact absurd hc' (by decide)

/-- C9 witness: node id 5 is declared, then a second node with the same id
and a weight the mapper rejects; the parse fails with the weight error. -/
theorem c9_weight_checked_before_duplicate_witness :
    sexp_to_graph (Sexp.map [("graph", Sexp.map
        [("node", Sexp.map [("id", uintAtom 5)]),
         ("node", Sexp.map [("id", uintAtom 5), ("weight", uintAtom 7)])])])
      rejectPresent constWeight = PResult.err "invalid node weight" ∧
    sexp_to_graph (Sexp.map [("graph", Sexp.map
        [("node", Sexp.map [("id", uintAtom 5)]),
         ("node", Sexp.map [("id", uintAtom 5), ("weight", uintAtom 7)])])])
      rejectPresent constWeight ≠ PResult.err "duplicate node-id" :=
  c9_weight_checked_before_duplicate rejectPresent constWeight _ _
    [("node", Sexp.map [("id", uintAtom 5)])] []
    (Sexp.map [("id", uintAtom 5), ("weight", uintAtom 7)])
    [("id", uintAtom 5), ("weight", uintAtom 7)]
    [(5, 0)] (Graph.mk [0] []) [] 5 0
    rfl rfl rfl rfl rfl rfl rfl

/-- C10: keys of a node record other than id and weight, and keys of an
edge record other than source, target and weight, are ignored: two
documents that differ only in such a record but agree on the recognized
lookups parse to exactly the same result. -/
theorem c10_extra_record_keys_ignored {N E : Type} (nwf : Option Sexp → Option N)
    (ewf : Option Sexp → Option E) :
    (∀ (pre post : List (String × Sexp)) (v v' : Sexp)
        (info info' : List (String × Sexp)),
      v.into_map = some info → v'.into_map = some info' →
      getk info "id" = getk info' "id" →
      getk info "weight" = getk info' "weight" →
      sexp_to_graph (Sexp.map [("graph", Sexp.map (pre ++ ("node", v) :: post))]) nwf ewf =
        sexp_to_graph (Sexp.map [("graph", Sexp.map (pre ++ ("node", v') :: post))]) nwf ewf) ∧
    (∀ (pre post : List (String × Sexp)) (v v' : Sexp)
        (info info' : List (String × Sexp)),
      v.into_map = some info → v'.into_map = some info' →
      getk info "source" = getk info' "source" →
      getk info "target" = getk info' "target" →
      getk info "weight" = getk info' "weight" →
      sexp_to_graph (Sexp.map [("graph", Sexp.map (pre ++ ("edge", v) :: post))]) nwf ewf =
        sexp_to_graph (Sexp.map [("graph", Sexp.map (pre ++ ("edge", v') :: post))]) nwf ewf) := by
  constructor
  · intro pre post v v' info info' hm hm' hid hw
    have hloop : processEntries nwf ewf (pre ++ ("node", v) :: post) [] Graph.new [] =
        processEntries nwf ewf (pre ++ ("node", v') :: post) [] Graph.new [] := by
      rw [processEntries_append, processEntries_append]
      cases hp : processEntries nwf ewf pre [] Graph.new ([] : List (Nat × Nat × E)) with
      | error m => rfl
      | ok st =>
        obtain ⟨a, b, c⟩ := st
        show processEntries nwf ewf (("node", v) :: post) a b c =
          processEntries nwf ewf (("node", v') :: post) a b c
        simp only [processEntries]
        rw [processEntry_node_congr nwf ewf v v' info info' a b c hm hm' hid hw]
    simp [sexp_to_graph, Sexp.into_map, getk, hloop]
  · intro pre post v v' info info' hm hm' hs ht hw
    have hloop : processEntries nwf ewf (pre ++ ("edge", v) :: post) [] Graph.new [] =
        processEntries nwf ewf (pre ++ ("edge", v') :: post) [] Graph.new [] := by
      rw [processEntries_append, processEntries_append]
      cases hp : processEntries nwf ewf pre [] Graph.new ([] : List (Nat × Nat × E)) with
      | error m => rfl
      | ok st =>
        obtain ⟨a, b, c⟩ := st
        show processEntries nwf ewf (("edge", v) :: post) a b c =
          processEntries nwf ewf (("edge", v') :: post) a b c
        simp only [processEntries]
        rw [processEntry_edge_congr nwf ewf v v' info info' a b c hm hm' hs ht hw]
    simp [sexp_to_graph, Sexp.into_map, getk, hloop]

/-- C10 witness: adding a color key to a node record and a label key to an
edge record leaves the parse results unchanged. -/
theorem c10_extra_record_keys_ignored_witness :
    sexp_to_graph (Sexp.map [("graph", Sexp.map
        [("node", Sexp.map [("id", uintAtom 1)])])]) constWeight constWeight =
      sexp_to_graph (Sexp.map [("graph", Sexp.map
        [("node", Sexp.map [("id", uintAtom 1), ("color", Sexp.atom (Atom.str "red"))])])])
        constWeight constWeight ∧
    sexp_to_graph (Sexp.map [("graph", Sexp.map
        [("node", Sexp.map [("id", uintAtom 1)]),
         ("edge", Sexp.map [("source", uintAtom 1), ("target", uintAtom 1)])])])
      constWeight constWeight =
      sexp_to_graph (Sexp.map [("graph", Sexp.map
        [("node", Sexp.map [("id", uintAtom 1)]),
         ("edge", Sexp.map [("source", uintAtom 1), ("target", uintAtom 1),
           ("label", Sexp.atom (Atom.str "loop"))])])])
        constWeight constWeight :=
  ⟨(c10_extra_record_keys_ignored constWeight constWeight).1 [] []
      (Sexp.map [("id", uintAtom 1)])
      (Sexp.map [("id", uintAtom 1), ("color", Sexp.atom (Atom.str "red"))])
      [("id", uintAtom 1)]
      [("id", uintAtom 1), ("color", Sexp.atom (Atom.str "red"))]
      rfl rfl rfl rfl,
   (c10_extra_record_keys_ignored constWeight constWeight).2
      [("node", Sexp.map [("id", uintAtom 1)])] []
      (Sexp.map [("source", uintAtom 1), ("target", uintAtom 1)])
      (Sexp.map [("source", uintAtom 1), ("target", uintAtom 1),
        ("label", Sexp.atom (Atom.str "loop"))])
      [("source", uintAtom 1), ("target", uintAtom 1)]
      [("source", uintAtom 1), ("target", uintAtom 1),
        ("label", Sexp.atom (Atom.str "loop"))]
      rfl rfl rfl rfl rfl⟩

end Gml
